import Mathlib

/-!
Verification of the node-manager-core library against its specification.

The Go sources are shallowly embedded: remote calls (RPC, HTTP) appear as
oracle parameters describing the outcome the remote side would produce;
machine-integer arithmetic is modelled with its wrap-around semantics
explicit (uint64 sums reduced modulo 2^64, the int loop index wrapped in
two's complement); the float64 gas arithmetic is modelled over rationals
with the IEEE-754 binary64 round-to-nearest-even step applied to the
product; in-place mutation of caller-supplied option objects is made
explicit by returning the updated object; a call that never returns is
modelled as none.
-/

namespace NodeManagerCore

/-! ### Client failover proxy (node/services/function-runners.go, bn-manager.go) -/

/-- Errors returned by a wrapped client call.  Mirrors the three categories the
Go code distinguishes with type assertions: a syscall.Errno, a net.Error, or
any other (application-level) error. -/
inductive GoError where
  | errno (code : Nat)
  | netErr (msg : String)
  | appError (msg : String)
deriving DecidableEq

/-- Embeds BeaconClientManager.isDisconnected (bn-manager.go lines 1025-1032):
true exactly when errors.As finds a syscall.Errno or a net.Error in the chain. -/
def isDisconnected : GoError → Bool
  | .errno _ => true
  | .netErr _ => true
  | .appError _ => false

/-- The observable state of an IClientManager: the readiness flags and whether
a fallback client is configured.  The clients themselves are abstracted into
the call-outcome oracles passed to the runners. -/
structure ClientManager where
  primaryReady : Bool
  fallbackReady : Bool
  fallbackEnabled : Bool
deriving DecidableEq

/-- The error outcomes of a runFunctionX call: a remote error propagated
verbatim, the terminal "all clients failed" error, or the "no clients were
ready" error produced without any network call. -/
inductive RunError where
  | remote (e : GoError)
  | allFailed
  | noneReady
deriving DecidableEq

/-- Which endpoint a network call was dispatched to. -/
inductive Endpoint where
  | primary
  | fallback
deriving DecidableEq

/-- Embeds runFunction1 (function-runners.go lines 21-68).  fPrimary and
fFallback are oracles giving the outcome of invoking the wrapped function on
the respective client.  Returns the updated manager state, the result, and the
list of endpoints actually invoked, in order.  The Go function recurses after
marking the primary not ready; the recursion terminates because primaryReady
strictly decreases. -/
def runFunction1 {α : Type} (m : ClientManager)
    (fPrimary fFallback : Except GoError α) :
    ClientManager × Except RunError α × List Endpoint :=
  if m.primaryReady then
    match fPrimary with
    | .ok result => (m, .ok result, [.primary])
    | .error err =>
      if isDisconnected err then
        if m.fallbackEnabled then
          let r := runFunction1 { m with primaryReady := false } fPrimary fFallback
          (r.1, r.2.1, .primary :: r.2.2)
        else ({ m with primaryReady := false }, .error .allFailed, [.primary])
      else
        (m, .error (.remote err), [.primary])
  else if m.fallbackReady then
    match fFallback with
    | .ok result => (m, .ok result, [.fallback])
    | .error err =>
      if isDisconnected err then
        ({ m with fallbackReady := false }, .error .allFailed, [.fallback])
      else
        (m, .error (.remote err), [.fallback])
  else
    (m, .error .noneReady, [])
termination_by (if m.primaryReady then 1 else 0)
decreasing_by simp_all

/-- Embeds runFunction0 (function-runners.go lines 71-76): delegates to
runFunction1 with a unit result. -/
def runFunction0 (m : ClientManager) (fPrimary fFallback : Except GoError Unit) :
    ClientManager × Except RunError Unit × List Endpoint :=
  runFunction1 m fPrimary fFallback

/-- Embeds runFunction2 (function-runners.go lines 79-92): delegates to
runFunction1 with a pair result. -/
def runFunction2 {α β : Type} (m : ClientManager)
    (fPrimary fFallback : Except GoError (α × β)) :
    ClientManager × Except RunError (α × β) × List Endpoint :=
  runFunction1 m fPrimary fFallback

/-! ### Transaction manager (eth/utils.go in the wallet/eth package) -/

/-- The block gas limit constant (eth package, GasLimit = 30000000). -/
def GasLimit : Nat := 30000000

/-- The transaction manager configuration: the safety buffer and multiplier.
The execution client is abstracted into the oracles passed to each operation.
The Go multiplier is a float64; it is embedded as an exact rational. -/
structure TransactionManager where
  buffer : Nat
  multiplier : ℚ
deriving DecidableEq

/-- Embeds NewTransactionManager: rejects a multiplier that is nonzero and
less than 1. -/
def NewTransactionManager (safeGasBuffer : Nat) (safeGasMultiplier : ℚ) :
    Except String TransactionManager :=
  if safeGasMultiplier ≠ 0 ∧ safeGasMultiplier < 1 then
    .error "multiplier cannot be less than 1"
  else
    .ok { buffer := safeGasBuffer, multiplier := safeGasMultiplier }

/-- Floor of a rational, computed explicitly on its reduced fraction (the
denominator is positive, so integer division of num by den is the floor);
agrees with Mathlib's floor by ratFloor_eq below. -/
def ratFloor (q : ℚ) : Int := q.num / (q.den : Int)

/-- Ceiling of a rational, as the negated floor of the negation. -/
def ratCeil (q : ℚ) : Int := -ratFloor (-q)

/-- Fuelled floor-log2 on Nat; with fuel ≥ n the fuel never runs out. -/
def log2Aux : Nat → Nat → Nat
  | 0, _ => 0
  | fuel + 1, n => if n ≥ 2 then log2Aux fuel (n / 2) + 1 else 0

/-- Floor of log2 for positive n. -/
def log2floor (n : Nat) : Nat := log2Aux n n

/-- Round a rational to the nearest integer, ties to even. -/
def roundHalfEven (x : ℚ) : Int :=
  let f := ratFloor x
  let r := x - (f : ℚ)
  if r < 1 / 2 then f
  else if 1 / 2 < r then f + 1
  else if f % 2 = 0 then f else f + 1

/-- IEEE-754 binary64 rounding (round to nearest, ties to even, 53-bit
significand) of a rational in the positive normal finite range, as Go
applies it to the product float64(estimate) * multiplier: the value is
scaled by the ulp 2^(E-52) of its binade, rounded to an integer, and scaled
back.  Nonpositive values and values below 1 are returned unchanged: with a
constructor-accepted multiplier (0 or ≥ 1) and an estimate that passed the
block-gas-limit check, the product is either 0 (exact) or ≥ 1.  The binade
overflow to infinity above 2^1024 is outside the range the theorems use
(their no-overflow hypotheses keep the value below 2^64). -/
def roundF64 (q : ℚ) : ℚ :=
  if q ≤ 0 then q
  else if q < 1 then q
  else
    let E := log2floor (ratFloor q).toNat
    if E ≤ 52 then
      (roundHalfEven (q * ((2 ^ (52 - E) : Nat) : ℚ)) : ℚ) / ((2 ^ (52 - E) : Nat) : ℚ)
    else
      (roundHalfEven (q / ((2 ^ (E - 52) : Nat) : ℚ)) : ℚ) * ((2 ^ (E - 52) : Nat) : ℚ)

/-- The safe gas value computed by GetSafeGasLimit on its non-error path:
uint64(math.Ceil(float64(estimate)*multiplier)) + buffer.  The float64
product is the exact rational product passed through binary64 rounding;
math.Ceil on a float is exact; the conversion to uint64 and the addition of
the buffer are the wrapping uint64 arithmetic of Go, so the sum is reduced
modulo 2^64. -/
def ceilSafeLimit (estimate : Nat) (multiplier : ℚ) (buffer : Nat) : Nat :=
  ((ratCeil (roundF64 ((estimate : ℚ) * multiplier))).toNat + buffer) % 2 ^ 64

/-- Embeds TransactionManager.GetSafeGasLimit: error if the estimate exceeds
the block gas limit, else error if the computed safe limit exceeds it, else
the safe limit. -/
def GetSafeGasLimit (t : TransactionManager) (estimate : Nat) : Except String Nat :=
  if estimate > GasLimit then
    .error "estimated gas usage is greater than the block gas limit"
  else
    let safeLimit := ceilSafeLimit estimate t.multiplier t.buffer
    if safeLimit > GasLimit then
      .error "safe gas limit is greater than the block gas limit"
    else
      .ok safeLimit

/-- Embeds the eth.SimulationResult structure. -/
structure SimulationResult where
  isSimulated : Bool
  estimatedGasLimit : Nat
  safeGasLimit : Nat
  simulationError : String
deriving DecidableEq

/-- Embeds TransactionManager.SimulateTransaction.  optsPresent records
whether a non-nil opts was supplied; estimateGas is the oracle for
client.EstimateGas on the call message built from opts, value and data, with
the error message already passed through normalizeRevertMessage. -/
def SimulateTransaction (t : TransactionManager) (optsPresent : Bool)
    (estimateGas : Except String Nat) : SimulationResult :=
  if optsPresent = false then
    { isSimulated := false, estimatedGasLimit := 0, safeGasLimit := 0, simulationError := "" }
  else
    match estimateGas with
    | .error e =>
      { isSimulated := true, estimatedGasLimit := 0, safeGasLimit := 0,
        simulationError := "error estimating gas needed: " ++ e }
    | .ok gasLimit =>
      match GetSafeGasLimit t gasLimit with
      | .error e =>
        { isSimulated := true, estimatedGasLimit := 0, safeGasLimit := 0,
          simulationError := "error estimating gas limit: " ++ e }
      | .ok safeLimit =>
        { isSimulated := true, estimatedGasLimit := gasLimit, safeGasLimit := safeLimit,
          simulationError := "" }

/-- Embeds bind.TransactOpts, restricted to the fields the library reads or
writes.  Addresses, signers and contexts are abstracted to Nat identifiers;
the nonce is a possibly-nil big.Int, so Option Nat. -/
structure TransactOpts where
  fromAddr : Nat
  nonce : Option Nat
  signer : Nat
  gasPrice : Option Nat
  gasFeeCap : Option Nat
  gasTipCap : Option Nat
  gasLimit : Nat
  callCtx : Nat
  noSend : Bool
  value : Option Int
deriving DecidableEq

/-- The transaction object handed to the go-ethereum bound contract: exactly
the option fields RawTransact is given, plus the target and the calldata.
Modelled from the library boundary: bind.BoundContract.RawTransact builds and
(unless NoSend) broadcasts a transaction from these fields. -/
structure RawTx where
  toAddr : Nat
  data : List Nat
  fromAddr : Nat
  nonce : Option Nat
  signer : Nat
  gasPrice : Option Nat
  gasFeeCap : Option Nat
  gasTipCap : Option Nat
  gasLimit : Nat
  callCtx : Nat
  noSend : Bool
  value : Option Int
deriving DecidableEq

/-- Embeds TransactionManager.ExecuteTransactionRaw: copies every option
field into a fresh opts except the value, which is overwritten with the value
argument, then hands the result to RawTransact. -/
def ExecuteTransactionRaw (toAddr : Nat) (data : List Nat) (value : Option Int)
    (opts : TransactOpts) : RawTx :=
  { toAddr := toAddr
    data := data
    fromAddr := opts.fromAddr
    nonce := opts.nonce
    signer := opts.signer
    gasPrice := opts.gasPrice
    gasFeeCap := opts.gasFeeCap
    gasTipCap := opts.gasTipCap
    gasLimit := opts.gasLimit
    callCtx := opts.callCtx
    noSend := opts.noSend
    value := value }

/-- Embeds the eth.TransactionInfo structure. -/
structure TransactionInfo where
  data : List Nat
  toAddr : Nat
  value : Option Int
  simulationResult : SimulationResult
deriving DecidableEq

/-- Embeds TransactionManager.ExecuteTransaction: delegates to
ExecuteTransactionRaw with the info fields. -/
def ExecuteTransaction (txInfo : TransactionInfo) (opts : TransactOpts) : RawTx :=
  ExecuteTransactionRaw txInfo.toAddr txInfo.data txInfo.value opts

/-- Embeds TransactionManager.SignTransaction: sets NoSend on the caller's
opts (an in-place write in Go, made explicit by returning the updated opts)
and delegates to ExecuteTransactionRaw. -/
def SignTransaction (txInfo : TransactionInfo) (opts : TransactOpts) :
    TransactOpts × RawTx :=
  let opts1 := { opts with noSend := true }
  (opts1, ExecuteTransactionRaw txInfo.toAddr txInfo.data txInfo.value opts1)

/-- Embeds the eth.TransactionSubmission structure. -/
structure TransactionSubmission where
  txInfo : TransactionInfo
  gasLimit : Nat
deriving DecidableEq

/-- The loop body of BatchExecuteTransactions: for each submission, write the
submission's gas limit into the shared opts, call the RawTransact boundary,
and on success record the built transaction and increment the nonce in place
for the next one.  transactErr is the oracle for the failure of the i-th
RawTransact call (signing or submission failure); on a failure the loop
aborts with the wrapped error before incrementing the nonce, exactly as the
Go loop returns (nil, err).  The first argument is the loop index used in
the error message; the nonce is known non-nil when the loop starts. -/
def batchLoop (transactErr : Nat → Option String) :
    Nat → List TransactionSubmission → TransactOpts →
    Except String (List RawTx) × TransactOpts
  | _, [], opts => (.ok [], opts)
  | k, sub :: rest, opts =>
    match transactErr k with
    | some e =>
      (.error ("error creating transaction " ++ toString k ++ " in bundle: " ++ e),
        { opts with gasLimit := sub.gasLimit })
    | none =>
      match batchLoop transactErr (k + 1) rest
          { opts with gasLimit := sub.gasLimit, nonce := opts.nonce.map (· + 1) } with
      | (.error e, optsF) => (.error e, optsF)
      | (.ok txs, optsF) =>
        (.ok (ExecuteTransactionRaw sub.txInfo.toAddr sub.txInfo.data
          sub.txInfo.value { opts with gasLimit := sub.gasLimit } :: txs), optsF)

/-- Embeds TransactionManager.BatchExecuteTransactions.  nonceAt is the oracle
for client.NonceAt on the sender; transactErr the per-iteration RawTransact
failure oracle; the second component of the result counts how many times
NonceAt was queried.  The caller-visible mutation of opts is made explicit:
the updated opts is returned alongside the transactions on success, and on a
per-transaction failure the wrapped error is returned with no transactions,
as in the Go code. -/
def BatchExecuteTransactions (nonceAt : Except String Nat)
    (transactErr : Nat → Option String)
    (txSubmissions : List TransactionSubmission) (opts : TransactOpts) :
    Except String (List RawTx × TransactOpts) × Nat :=
  match opts.nonce with
  | none =>
    match nonceAt with
    | .error e => (.error ("error getting latest nonce for node: " ++ e), 1)
    | .ok n =>
      match batchLoop transactErr 0 txSubmissions { opts with nonce := some n } with
      | (.error e, _) => (.error e, 1)
      | (.ok txs, optsF) => (.ok (txs, optsF), 1)
  | some _ =>
    match batchLoop transactErr 0 txSubmissions opts with
    | (.error e, _) => (.error e, 0)
    | (.ok txs, optsF) => (.ok (txs, optsF), 0)

/-- Embeds a mined transaction receipt, reduced to the status field the wait
path inspects. -/
structure Receipt where
  status : Nat
deriving DecidableEq

/-- Embeds TransactionManager.WaitForTransaction.  waitMined is the oracle
for bind.WaitMined: either a transport-level error or the mined receipt. -/
def WaitForTransaction (waitMined : Except String Receipt) : Except String Unit :=
  match waitMined with
  | .error e => .error ("error running transaction: " ++ e)
  | .ok txReceipt =>
    if txReceipt.status = 0 then
      .error "transaction failed with status 0"
    else
      .ok ()

/-- A non-simulated sample simulation result, for concrete instantiations. -/
def sampleSim : SimulationResult := ⟨false, 0, 0, ""⟩

/-- A sample transaction info. -/
def sampleInfo1 : TransactionInfo := ⟨[1, 2], 4, some 10, sampleSim⟩

/-- A second sample transaction info with no value. -/
def sampleInfo2 : TransactionInfo := ⟨[3], 6, none, sampleSim⟩

/-- A sample options object with nonce 5 set. -/
def sampleOpts : TransactOpts := ⟨1, some 5, 2, none, some 7, some 3, 0, 0, false, some 9⟩

/-- A sample submission with gas limit 100. -/
def sampleSub1 : TransactionSubmission := ⟨sampleInfo1, 100⟩

/-- A sample submission with gas limit 200. -/
def sampleSub2 : TransactionSubmission := ⟨sampleInfo2, 200⟩

/-- A RawTransact boundary that never fails. -/
def sampleNoErr : Nat → Option String := fun _ => none

/-- The transaction the sample batch builds first. -/
def sampleTx1 : RawTx :=
  ⟨4, [1, 2], 1, some 5, 2, none, some 7, some 3, 100, 0, false, some 10⟩

/-- The transaction the sample batch builds second. -/
def sampleTx2 : RawTx :=
  ⟨6, [3], 1, some 6, 2, none, some 7, some 3, 200, 0, false, none⟩

/-- The opts state after the sample batch. -/
def sampleOptsF : TransactOpts :=
  ⟨1, some 7, 2, none, some 7, some 3, 200, 0, false, some 9⟩

/-! ### Batched multicall query engine (eth/query-manager.go) -/

/-- Two's-complement wrap-around of a mathematical integer into the int64
range [-2^63, 2^63), the defined overflow behavior of Go's signed integer
addition.  Go ints are 64-bit on the supported platforms. -/
def wrapInt64 (x : Int) : Int :=
  (x + 9223372036854775808) % 18446744073709551616 - 9223372036854775808

/-- The integers from lo (inclusive) to hi (exclusive); empty when hi ≤ lo. -/
def intRange (lo hi : Int) : List Int :=
  (List.range (hi - lo).toNat).map (fun (k : Nat) => lo + (k : Int))

/-- The window dispatch loop of BatchQuery / FlexBatchQuery
(query-manager.go lines 99-104): for i := 0; i < count; i += batchSize, with
max := i + batchSize clamped to count, and both additions wrapping in int64.
The loop index takes values among the 2^64 int64 values and the step is
constant, so if the loop has not exited after 2^64 iterations a value has
repeated and the loop cycles forever; the fuel 2^64 therefore exactly
separates termination (some windows) from divergence (none). -/
def batchWindowsGoAux (count batchSize : Int) : Nat → Int → Option (List (Int × Int))
  | 0, _ => none
  | fuel + 1, i =>
    if i < count then
      match batchWindowsGoAux count batchSize fuel (wrapInt64 (i + batchSize)) with
      | none => none
      | some ws =>
        some ((i, if wrapInt64 (i + batchSize) > count then count
                  else wrapInt64 (i + batchSize)) :: ws)
    else some []

/-- The windows of one BatchQuery / FlexBatchQuery call; none when the
dispatch loop never terminates. -/
def batchWindowsGo (count batchSize : Int) : Option (List (Int × Int)) :=
  batchWindowsGoAux count batchSize (2 ^ 64) 0

/-- The index range a window covers: [i, max).  The inner index j never
wraps, since it stops at max ≤ max(count, wrapped step) < 2^63. -/
def windowIndices (w : Int × Int) : List Int :=
  intRange w.1 w.2

/-- Trace of the query-adder invocations inside one window: the adder runs on
each index in order until the first failure, whose error the job wraps and
returns. -/
def windowTrace (adder : Int → Except String Unit) :
    List Int → List Int × Except String Unit
  | [] => ([], .ok ())
  | j :: rest =>
    match adder j with
    | .error e => ([j], .error ("error running query adder: " ++ e))
    | .ok _ =>
      let r := windowTrace adder rest
      (j :: r.1, r.2)

/-- One BatchQuery window job (the closure passed to wg.Go): create the
multicaller, add the window's queries, run the strict multicall.  newMC and
call are oracles keyed by the window start.  Returns the adder-invocation
trace and the job's result. -/
def batchWindowJob (newMC : Int → Except String Unit)
    (adder : Int → Except String Unit) (call : Int → Except String Unit)
    (w : Int × Int) : List Int × Except String Unit :=
  match newMC w.1 with
  | .error e => ([], .error e)
  | .ok _ =>
    let tr := windowTrace adder (windowIndices w)
    match tr.2 with
    | .error e => (tr.1, .error e)
    | .ok _ =>
      match call w.1 with
      | .error e => (tr.1, .error ("error executing multicall: " ++ e))
      | .ok _ => (tr.1, .ok ())

/-- The handleResult loop of a FlexBatchQuery window: for the j-th per-call
success flag, invoke the handler at global index j + i, stopping at the first
handler error. -/
def handleLoop (handleResult : Bool → Int → Except String Unit) (i : Int) :
    Int → List Bool → Except String Unit
  | _, [] => .ok ()
  | j, result :: rest =>
    match handleResult result (j + i) with
    | .error e => .error ("error running query result handler: " ++ e)
    | .ok _ => handleLoop handleResult i (j + 1) rest

/-- One FlexBatchQuery window job: as batchWindowJob but with the tolerant
multicall, whose oracle yields the per-call success vector, fed to the
handler loop. -/
def flexWindowJob (newMC : Int → Except String Unit)
    (adder : Int → Except String Unit)
    (flexCall : Int → Except String (List Bool))
    (handleResult : Bool → Int → Except String Unit)
    (w : Int × Int) : List Int × Except String Unit :=
  match newMC w.1 with
  | .error e => ([], .error e)
  | .ok _ =>
    let tr := windowTrace adder (windowIndices w)
    match tr.2 with
    | .error e => (tr.1, .error e)
    | .ok _ =>
      match flexCall w.1 with
      | .error e => (tr.1, .error ("error executing multicall: " ++ e))
      | .ok results => (tr.1, handleLoop handleResult w.1 0 results)

/-- Models errgroup.Group.SetLimit (golang.org/x/sync): a negative limit
removes the bound (nil semaphore); a nonnegative limit n installs a semaphore
of capacity n. -/
def setLimitSem (n : Int) : Option Nat :=
  if n < 0 then none else some n.toNat

/-- The first error among the completed jobs, as errgroup.Wait reports one. -/
def firstJobError : List (List Int × Except String Unit) → Except String Unit
  | [] => .ok ()
  | jb :: rest =>
    match jb.2 with
    | .error e => .error e
    | .ok _ => firstJobError rest

/-- Models running a list of terminating jobs under an errgroup: with a
semaphore of capacity 0 and at least one job, Group.Go blocks forever
acquiring the semaphore, so the submitting call never returns (none);
otherwise every job runs and Wait returns the first error. -/
def errgroupRun (sem : Option Nat)
    (jobs : List (List Int × Except String Unit)) :
    Option (List Int × Except String Unit) :=
  match sem, jobs with
  | some 0, _ :: _ => none
  | _, _ => some ((jobs.map Prod.fst).flatten, firstJobError jobs)

/-- The final error wrapping of a batch call: a non-nil wg.Wait error is
wrapped as "error during multicall query". -/
def wrapWaitError : Except String Unit → Except String Unit
  | .error e => .error ("error during multicall query: " ++ e)
  | .ok _ => .ok ()

/-- Embeds QueryManager.BatchQuery (query-manager.go lines 93-132).  The
result is none when the call never returns — because the window dispatch
loop diverges on int64 wrap-around, or because the errgroup semaphore has
capacity 0 — and otherwise the adder-invocation trace across windows
together with the call's error result. -/
def BatchQuery (concurrentCallLimit : Int) (count batchSize : Int)
    (newMC : Int → Except String Unit) (adder : Int → Except String Unit)
    (call : Int → Except String Unit) :
    Option (List Int × Except String Unit) :=
  match batchWindowsGo count batchSize with
  | none => none
  | some ws =>
    (errgroupRun (setLimitSem concurrentCallLimit)
      (ws.map (batchWindowJob newMC adder call))).map
        (fun r => (r.1, wrapWaitError r.2))

/-- Embeds QueryManager.FlexBatchQuery (query-manager.go lines 136-183). -/
def FlexBatchQuery (concurrentCallLimit : Int) (count batchSize : Int)
    (newMC : Int → Except String Unit) (adder : Int → Except String Unit)
    (flexCall : Int → Except String (List Bool))
    (handleResult : Bool → Int → Except String Unit) :
    Option (List Int × Except String Unit) :=
  match batchWindowsGo count batchSize with
  | none => none
  | some ws =>
    (errgroupRun (setLimitSem concurrentCallLimit)
      (ws.map (flexWindowJob newMC adder flexCall handleResult))).map
        (fun r => (r.1, wrapWaitError r.2))

/-! ### Beacon HTTP client (beacon/client/std-http-client.go) -/

/-- Embeds StandardHttpClient.getBeaconBlock (lines 790-806).  getRequest is
the oracle for the HTTP GET: a transport error, or the response body with its
status code.  unmarshal is the oracle for json.Unmarshal into the response
struct, whose content the function never inspects, so the struct is a type
parameter with default as its zero value. -/
def getBeaconBlock {β : Type} [Inhabited β]
    (getRequest : Except String (String × Nat))
    (unmarshal : String → Option β) : β × Bool × Option String :=
  match getRequest with
  | .error e => (default, false, some ("error getting beacon block data: " ++ e))
  | .ok (responseBody, status) =>
    if status = 404 then
      (default, false, none)
    else if status ≠ 200 then
      (default, false,
        some ("error getting beacon block data: HTTP status " ++ toString status ++
          "; response body: " ++ responseBody))
    else
      match unmarshal responseBody with
      | none => (default, false, some "error decoding beacon block data")
      | some beaconBlock => (beaconBlock, true, none)

/-! ### Helper lemmas -/

/-- A string of length zero is the empty string. -/
theorem string_length_zero (s : String) (h : s.length = 0) : s = "" := by
  cases s with
  | mk d =>
    cases d with
    | nil => rfl
    | cons a t => simp [String.length] at h

/-- Appending to a non-empty string stays non-empty. -/
theorem string_append_ne_empty (s t : String) (hs : s ≠ "") : s ++ t ≠ "" := by
  intro h
  have hl := congrArg String.length h
  rw [String.length_append] at hl
  have h0 : String.length "" = 0 := rfl
  rw [h0] at hl
  exact hs (string_length_zero s (by omega))

/-- Closed form of runFunction1, unfolding the single recursive retry. -/
theorem runFunction1_eq {α : Type} (m : ClientManager)
    (fPrimary fFallback : Except GoError α) :
    runFunction1 m fPrimary fFallback =
      if m.primaryReady then
        match fPrimary with
        | .ok v => (m, .ok v, [.primary])
        | .error e =>
          if isDisconnected e then
            if m.fallbackEnabled then
              if m.fallbackReady then
                match fFallback with
                | .ok v =>
                  ({ m with primaryReady := false }, .ok v, [.primary, .fallback])
                | .error e2 =>
                  if isDisconnected e2 then
                    ({ m with primaryReady := false, fallbackReady := false },
                      .error .allFailed, [.primary, .fallback])
                  else
                    ({ m with primaryReady := false }, .error (.remote e2),
                      [.primary, .fallback])
              else ({ m with primaryReady := false }, .error .noneReady, [.primary])
            else ({ m with primaryReady := false }, .error .allFailed, [.primary])
          else (m, .error (.remote e), [.primary])
      else if m.fallbackReady then
        match fFallback with
        | .ok v => (m, .ok v, [.fallback])
        | .error e =>
          if isDisconnected e then
            ({ m with fallbackReady := false }, .error .allFailed, [.fallback])
          else (m, .error (.remote e), [.fallback])
      else (m, .error .noneReady, []) := by
  rcases m with ⟨p, fr, fe⟩
  cases p <;> cases fr <;> cases fe <;>
    rcases fPrimary with e1 | v1 <;> rcases fFallback with e2 | v2 <;>
      simp [runFunction1] <;>
        (cases hd1 : isDisconnected e1 <;> cases hd2 : isDisconnected e2 <;>
          simp [hd1, hd2])

/-! ### Claim theorems -/

/-- Claim C1: when the invoked endpoint fails with an error not classified as
a disconnection, the failover runner returns that error unchanged, does not
invoke the other endpoint, and leaves both readiness flags unchanged; a
readiness flag is cleared only when that endpoint's call fails with a
disconnection-classified error.  runFunction0 and runFunction2 delegate to
runFunction1, so they inherit the behavior. -/
theorem runFunction_nondisconnection_propagates :
    (∀ {α : Type} (m : ClientManager) (fP fF : Except GoError α) (e : GoError),
      m.primaryReady = true → fP = .error e → isDisconnected e = false →
      runFunction1 m fP fF = (m, .error (.remote e), [.primary])) ∧
    (∀ {α : Type} (m : ClientManager) (fP fF : Except GoError α) (e : GoError),
      m.primaryReady = false → m.fallbackReady = true → fF = .error e →
      isDisconnected e = false →
      runFunction1 m fP fF = (m, .error (.remote e), [.fallback])) ∧
    (∀ {α : Type} (m : ClientManager) (fP fF : Except GoError α),
      ((runFunction1 m fP fF).1.primaryReady ≠ m.primaryReady →
        m.primaryReady = true ∧ (runFunction1 m fP fF).1.primaryReady = false ∧
        ∃ e, fP = .error e ∧ isDisconnected e = true) ∧
      ((runFunction1 m fP fF).1.fallbackReady ≠ m.fallbackReady →
        m.fallbackReady = true ∧ (runFunction1 m fP fF).1.fallbackReady = false ∧
        ∃ e, fF = .error e ∧ isDisconnected e = true)) ∧
    (∀ (m : ClientManager) (fP fF : Except GoError Unit),
      runFunction0 m fP fF = runFunction1 m fP fF) ∧
    (∀ {α β : Type} (m : ClientManager) (fP fF : Except GoError (α × β)),
      runFunction2 m fP fF = runFunction1 m fP fF) := by
  refine ⟨?_, ?_, ?_, fun m fP fF => rfl, fun m fP fF => rfl⟩
  · intro α m fP fF e hp he hd
    subst he
    rw [runFunction1_eq]
    simp [hp, hd]
  · intro α m fP fF e hp hf he hd
    subst he
    rw [runFunction1_eq]
    simp [hp, hf, hd]
  · intro α m fP fF
    rcases m with ⟨p, fr, fe⟩
    rw [runFunction1_eq]
    cases p <;> cases fr <;> cases fe <;>
      rcases fP with e1 | v1 <;> rcases fF with e2 | v2 <;>
        simp <;>
          (try cases hd1 : isDisconnected e1) <;>
            (try cases hd2 : isDisconnected e2) <;>
              simp_all

/-- Witness for C1: an application-level "not found" error on a ready primary
is propagated verbatim, the fallback is not called, and the state is kept. -/
theorem runFunction_nondisconnection_witness :
    runFunction1 ⟨true, true, true⟩ (.error (.appError "not found"))
        (.ok (42 : Nat)) =
      (⟨true, true, true⟩, .error (.remote (.appError "not found")), [.primary]) :=
  runFunction_nondisconnection_propagates.1 ⟨true, true, true⟩
    (.error (.appError "not found")) (.ok 42) (.appError "not found") rfl rfl rfl


/-- ratFloor agrees with the Mathlib floor. -/
theorem ratFloor_eq (q : ℚ) : ratFloor q = ⌊q⌋ := by
  rw [Rat.floor_def]
  rfl

/-- ratCeil agrees with the Mathlib ceiling. -/
theorem ratCeil_eq (q : ℚ) : ratCeil q = ⌈q⌉ := by
  unfold ratCeil
  rw [ratFloor_eq, Int.floor_neg]
  simp

/-- ratFloor of an integer is that integer. -/
theorem ratFloor_intCast (z : Int) : ratFloor ((z : ℚ)) = z := by
  unfold ratFloor
  rw [Rat.num_intCast, Rat.den_intCast]
  simp

/-- ratCeil of an integer is that integer. -/
theorem ratCeil_intCast (z : Int) : ratCeil ((z : ℚ)) = z := by
  unfold ratCeil
  rw [show (-(z : ℚ)) = ((-z : Int) : ℚ) by push_cast; ring, ratFloor_intCast]
  simp

/-- ratFloor of a natural number is that number. -/
theorem ratFloor_natCast (n : Nat) : ratFloor ((n : ℚ)) = n := by
  rw [show ((n : ℚ)) = (((n : Int)) : ℚ) by push_cast; ring, ratFloor_intCast]

/-- ratCeil of a natural number is that number. -/
theorem ratCeil_natCast (n : Nat) : ratCeil ((n : ℚ)) = n := by
  rw [show ((n : ℚ)) = (((n : Int)) : ℚ) by push_cast; ring, ratCeil_intCast]

/-- The fuelled log2 is correct when the fuel covers the input. -/
theorem log2Aux_spec :
    ∀ (fuel n : Nat), 1 ≤ n → n ≤ fuel →
      2 ^ log2Aux fuel n ≤ n ∧ n < 2 ^ (log2Aux fuel n + 1) := by
  intro fuel
  induction fuel with
  | zero => intro n h1 h2; omega
  | succ fuel ih =>
    intro n h1 h2
    by_cases hge : 2 ≤ n
    · have hrec := ih (n / 2) (by omega) (by omega)
      simp only [log2Aux, if_pos (show n ≥ 2 from hge)]
      set K := log2Aux fuel (n / 2) with hK
      have e1 : (2 : Nat) ^ (K + 1) = 2 * 2 ^ K := by ring
      have e2 : (2 : Nat) ^ (K + 1 + 1) = 2 * 2 ^ (K + 1) := by ring
      omega
    · have hn : n = 1 := by omega
      subst hn
      simp [log2Aux]

/-- Specification of log2floor for positive inputs. -/
theorem log2floor_spec (n : Nat) (h : 1 ≤ n) :
    2 ^ log2floor n ≤ n ∧ n < 2 ^ (log2floor n + 1) :=
  log2Aux_spec n n h le_rfl

/-- roundHalfEven fixes integers. -/
theorem roundHalfEven_intCast (z : Int) : roundHalfEven ((z : ℚ)) = z := by
  unfold roundHalfEven
  rw [ratFloor_intCast]
  norm_num

/-- roundHalfEven fixes natural numbers. -/
theorem roundHalfEven_natCast (m : Nat) : roundHalfEven ((m : ℚ)) = m := by
  rw [show ((m : ℚ)) = (((m : Int)) : ℚ) by push_cast; ring, roundHalfEven_intCast]

/-- Binary64 rounding fixes every natural number below 2^53 (these are
exactly representable). -/
theorem roundF64_natCast (n : Nat) (h1 : 1 ≤ n) (h2 : n < 2 ^ 53) :
    roundF64 ((n : ℚ)) = (n : ℚ) := by
  have hn1 : (1 : ℚ) ≤ (n : ℚ) := by exact_mod_cast h1
  have hE : log2floor n ≤ 52 := by
    rcases log2floor_spec n h1 with ⟨hl, _⟩
    by_contra hgt
    push_neg at hgt
    have hp : (2 : Nat) ^ 53 ≤ 2 ^ log2floor n :=
      Nat.pow_le_pow_right (by norm_num) (by omega)
    omega
  unfold roundF64
  rw [if_neg (by linarith), if_neg (by linarith)]
  simp only [ratFloor_natCast, Int.toNat_natCast]
  rw [if_pos hE]
  rw [show (n : ℚ) * ((2 ^ (52 - log2floor n) : Nat) : ℚ) =
      (((n * 2 ^ (52 - log2floor n) : Nat)) : ℚ) by push_cast; ring]
  rw [roundHalfEven_natCast]
  push_cast
  rw [mul_div_cancel_right₀]
  exact ne_of_gt (by positivity)

/-- Counterexample to claim C2 as stated: with the accepted multiplier 1,
buffer 2^64 - 1 and estimate 30000000, the Go uint64 sum
uint64(math.Ceil(float64(30000000)*1.0)) + (2^64 - 1) wraps to 29999999,
which is within the block gas limit, so GetSafeGasLimit silently returns it
with no error even though the unwrapped safe limit 30000000 + 2^64 - 1 far
exceeds the block gas limit — a silent clamp the claim denies. -/
theorem getSafeGasLimit_wrap_cex :
    GetSafeGasLimit ⟨2 ^ 64 - 1, 1⟩ 30000000 = .ok 29999999 ∧
    GasLimit < (ratCeil (roundF64 (((30000000 : Nat) : ℚ) * 1))).toNat +
      (2 ^ 64 - 1) := by
  have h1 : roundF64 (((30000000 : Nat) : ℚ) * 1) = ((30000000 : Nat) : ℚ) := by
    rw [mul_one]
    exact roundF64_natCast 30000000 (by norm_num) (by norm_num)
  have h2 : (ratCeil (roundF64 (((30000000 : Nat) : ℚ) * 1))).toNat = 30000000 := by
    rw [h1, ratCeil_natCast]
    simp
  have h3 : ceilSafeLimit 30000000 1 (2 ^ 64 - 1) = 29999999 := by
    unfold ceilSafeLimit
    rw [h2]
    decide
  constructor
  · unfold GetSafeGasLimit
    rw [if_neg (by norm_num [GasLimit])]
    simp only []
    rw [h3, if_neg (by norm_num [GasLimit])]
  · rw [h2]
    norm_num [GasLimit]

/-- Claim C2 (amended): with a buffer b and multiplier m accepted by the
constructor (m = 0 or m ≥ 1), and writing S for the uint64 value Go computes
— the ceiling of the binary64-rounded product e·m, plus b — GetSafeGasLimit
returns S whenever the estimate and S are within the block gas limit, and
errors whenever the estimate exceeds the block gas limit or S does, provided
the sum does not overflow uint64; when it overflows, the sum wraps modulo
2^64 and a wrapped value within the limit is returned without error, as the
counterexample shows. -/
theorem getSafeGasLimit_spec (b : Nat) (m : ℚ) (e : Nat)
    (hm : m = 0 ∨ 1 ≤ m) :
    (∃ t, NewTransactionManager b m = .ok t ∧ t.buffer = b ∧ t.multiplier = m) ∧
    ((ratCeil (roundF64 ((e : ℚ) * m))).toNat + b < 2 ^ 64 →
      ceilSafeLimit e m b = (ratCeil (roundF64 ((e : ℚ) * m))).toNat + b) ∧
    (e ≤ GasLimit → ceilSafeLimit e m b ≤ GasLimit →
      GetSafeGasLimit ⟨b, m⟩ e = .ok (ceilSafeLimit e m b)) ∧
    (GasLimit < e → ∃ msg, GetSafeGasLimit ⟨b, m⟩ e = .error msg) ∧
    (GasLimit < ceilSafeLimit e m b →
      ∃ msg, GetSafeGasLimit ⟨b, m⟩ e = .error msg) := by
  refine ⟨?_, ?_, ?_, ?_, ?_⟩
  · refine ⟨⟨b, m⟩, ?_, rfl, rfl⟩
    unfold NewTransactionManager
    have hcond : ¬(m ≠ 0 ∧ m < 1) := by
      rcases hm with h | h
      · rintro ⟨h1, _⟩; exact h1 h
      · rintro ⟨_, h2⟩; linarith
    rw [if_neg hcond]
  · intro h
    unfold ceilSafeLimit
    exact Nat.mod_eq_of_lt h
  · intro h1 h2
    unfold GetSafeGasLimit
    rw [if_neg (by omega)]
    simp only []
    rw [if_neg (by omega)]
  · intro h
    have heq : GetSafeGasLimit ⟨b, m⟩ e =
        .error "estimated gas usage is greater than the block gas limit" := by
      unfold GetSafeGasLimit
      rw [if_pos (by omega)]
    exact ⟨_, heq⟩
  · intro h
    by_cases he : e > GasLimit
    · have heq : GetSafeGasLimit ⟨b, m⟩ e =
          .error "estimated gas usage is greater than the block gas limit" := by
        unfold GetSafeGasLimit
        rw [if_pos he]
      exact ⟨_, heq⟩
    · have heq : GetSafeGasLimit ⟨b, m⟩ e =
          .error "safe gas limit is greater than the block gas limit" := by
        unfold GetSafeGasLimit
        rw [if_neg he]
        simp only []
        rw [if_pos (by omega)]
      exact ⟨_, heq⟩

/-- Witness for C2: buffer 100 and multiplier 3/2 on an estimate of 1000
produce ceil(1500) + 100 = 1600 (the product is exactly representable). -/
theorem getSafeGasLimit_witness :
    GetSafeGasLimit ⟨100, (3 : ℚ) / 2⟩ 1000 = .ok 1600 := by
  have h1 : roundF64 (((1000 : Nat) : ℚ) * ((3 : ℚ) / 2)) = ((1500 : Nat) : ℚ) := by
    rw [show ((1000 : Nat) : ℚ) * ((3 : ℚ) / 2) = ((1500 : Nat) : ℚ) by
      push_cast; norm_num]
    exact roundF64_natCast 1500 (by norm_num) (by norm_num)
  have hceil : ceilSafeLimit 1000 ((3 : ℚ) / 2) 100 = 1600 := by
    unfold ceilSafeLimit
    rw [h1, ratCeil_natCast]
    decide
  have h := (getSafeGasLimit_spec 100 ((3 : ℚ) / 2) 1000
    (Or.inr (by norm_num))).2.2.1 (by norm_num [GasLimit])
      (by rw [hceil]; norm_num [GasLimit])
  rw [hceil] at h
  exact h
/-- Claim C7: a mined transaction whose receipt has status 0 makes
WaitForTransaction return an error naming the failure even though no
transport error occurred; it returns nil exactly when the status is
non-zero. -/
theorem waitForTransaction_status_zero (r : Receipt) :
    (r.status = 0 →
      WaitForTransaction (.ok r) = .error "transaction failed with status 0") ∧
    (WaitForTransaction (.ok r) = .ok () ↔ r.status ≠ 0) := by
  constructor
  · intro h
    simp [WaitForTransaction, h]
  · constructor
    · intro h hz
      simp [WaitForTransaction, hz] at h
    · intro h
      simp [WaitForTransaction, h]

/-- Witness for C7: status 0 yields the failure error. -/
theorem waitForTransaction_status_zero_witness :
    (Receipt.mk 0).status = 0 ∧
    WaitForTransaction (.ok (Receipt.mk 0)) =
      .error "transaction failed with status 0" :=
  ⟨rfl, (waitForTransaction_status_zero ⟨0⟩).1 rfl⟩

/-- Claim C8: ExecuteTransaction, ExecuteTransactionRaw and SignTransaction
build the transaction with the value taken from the TransactionInfo (the
value argument), never from opts.value, while taking the sender, nonce,
signer, fee fields, gas limit, context and NoSend from opts (SignTransaction
after forcing NoSend on). -/
theorem executeTransaction_value_from_txInfo (txInfo : TransactionInfo)
    (toAddr : Nat) (data : List Nat) (value : Option Int) (opts : TransactOpts) :
    ExecuteTransactionRaw toAddr data value opts =
      { toAddr := toAddr, data := data, fromAddr := opts.fromAddr,
        nonce := opts.nonce, signer := opts.signer, gasPrice := opts.gasPrice,
        gasFeeCap := opts.gasFeeCap, gasTipCap := opts.gasTipCap,
        gasLimit := opts.gasLimit, callCtx := opts.callCtx,
        noSend := opts.noSend, value := value } ∧
    (ExecuteTransactionRaw toAddr data value opts).value = value ∧
    ExecuteTransaction txInfo opts =
      ExecuteTransactionRaw txInfo.toAddr txInfo.data txInfo.value opts ∧
    (ExecuteTransaction txInfo opts).value = txInfo.value ∧
    (SignTransaction txInfo opts).2 =
      ExecuteTransactionRaw txInfo.toAddr txInfo.data txInfo.value
        { opts with noSend := true } ∧
    (SignTransaction txInfo opts).2.value = txInfo.value ∧
    (SignTransaction txInfo opts).2.noSend = true :=
  ⟨rfl, rfl, rfl, rfl, rfl, rfl, rfl⟩

/-- Evaluation of the safe gas limit at estimate 0 with multiplier 0 and
buffer 0: the product is 0, its ceiling 0, and no wrap occurs. -/
theorem getSafeGasLimit_zero_zero : GetSafeGasLimit ⟨0, 0⟩ 0 = .ok 0 := by
  have hq : (((0 : Nat) : ℚ)) * (0 : ℚ) = 0 := by norm_num
  have hr : roundF64 ((((0 : Nat) : ℚ)) * (0 : ℚ)) = 0 := by
    rw [hq]
    simp [roundF64]
  have hc : ceilSafeLimit 0 0 0 = 0 := by
    unfold ceilSafeLimit
    rw [hr, show (0 : ℚ) = (((0 : Int)) : ℚ) by norm_num, ratCeil_intCast]
    decide
  unfold GetSafeGasLimit
  rw [if_neg (by norm_num [GasLimit])]
  simp only []
  rw [hc, if_neg (by norm_num [GasLimit])]

/-- Evaluation of the safe gas limit at estimate 21000 with multiplier 0 and
buffer 0: the product is 0. -/
theorem getSafeGasLimit_21000_zero : GetSafeGasLimit ⟨0, 0⟩ 21000 = .ok 0 := by
  have hq : (((21000 : Nat) : ℚ)) * (0 : ℚ) = 0 := by norm_num
  have hr : roundF64 ((((21000 : Nat) : ℚ)) * (0 : ℚ)) = 0 := by
    rw [hq]
    simp [roundF64]
  have hc : ceilSafeLimit 21000 0 0 = 0 := by
    unfold ceilSafeLimit
    rw [hr, show (0 : ℚ) = (((0 : Int)) : ℚ) by norm_num, ratCeil_intCast]
    decide
  unfold GetSafeGasLimit
  rw [if_neg (by norm_num [GasLimit])]
  simp only []
  rw [hc, if_neg (by norm_num [GasLimit])]

/-- Counterexample to claim C6 as stated: if the client's gas-estimation call
succeeds with an estimate of 0 (the Go code never checks the successful
estimate for positivity), the result has isSimulated = true, a zero
estimated gas limit and an empty simulation error, so neither disjunct of
the claimed invariant holds. -/
theorem simulateTransaction_zero_estimate_cex :
    (SimulateTransaction ⟨0, 0⟩ true (.ok 0)).isSimulated = true ∧
    ¬((0 < (SimulateTransaction ⟨0, 0⟩ true (.ok 0)).estimatedGasLimit ∧
        (SimulateTransaction ⟨0, 0⟩ true (.ok 0)).simulationError = "") ∨
      (SimulateTransaction ⟨0, 0⟩ true (.ok 0)).simulationError ≠ "") := by
  have hres : SimulateTransaction ⟨0, 0⟩ true (.ok 0) =
      ⟨true, 0, 0, ""⟩ := by
    simp [SimulateTransaction, getSafeGasLimit_zero_zero]
  rw [hres]
  simp

/-- Claim C6 (amended): SimulateTransaction is a total function into
SimulationResult (it never returns an error value); with nil opts it returns
the non-simulated all-zero result; and whenever isSimulated holds, at most
one of (estimatedGasLimit > 0 with empty simulationError) and (non-empty
simulationError) holds, with exactly one provided every successful gas
estimation from the client is positive. -/
theorem simulateTransaction_result_invariant (t : TransactionManager)
    (optsPresent : Bool) (estimateGas : Except String Nat)
    (hpos : ∀ g, estimateGas = .ok g → 0 < g) :
    (optsPresent = false →
      SimulateTransaction t optsPresent estimateGas = ⟨false, 0, 0, ""⟩) ∧
    ((SimulateTransaction t optsPresent estimateGas).isSimulated = true →
      ((0 < (SimulateTransaction t optsPresent estimateGas).estimatedGasLimit ∧
          (SimulateTransaction t optsPresent estimateGas).simulationError = "") ∨
        (SimulateTransaction t optsPresent estimateGas).simulationError ≠ "") ∧
      ¬((0 < (SimulateTransaction t optsPresent estimateGas).estimatedGasLimit ∧
          (SimulateTransaction t optsPresent estimateGas).simulationError = "") ∧
        (SimulateTransaction t optsPresent estimateGas).simulationError ≠ "")) := by
  constructor
  · intro h
    simp [SimulateTransaction, h]
  · intro hsim
    cases hopts : optsPresent with
    | false => simp [SimulateTransaction, hopts] at hsim
    | true =>
      cases hest : estimateGas with
      | error e =>
        have hres : SimulateTransaction t true (.error e) =
            ⟨true, 0, 0, "error estimating gas needed: " ++ e⟩ := by
          simp [SimulateTransaction]
        rw [hres]
        have hne : ("error estimating gas needed: " ++ e) ≠ "" :=
          string_append_ne_empty _ _ (by decide)
        simp [hne]
      | ok g =>
        have hg : 0 < g := hpos g hest
        cases hsafe : GetSafeGasLimit t g with
        | error e =>
          have hres : SimulateTransaction t true (.ok g) =
              ⟨true, 0, 0, "error estimating gas limit: " ++ e⟩ := by
            simp [SimulateTransaction, hsafe]
          rw [hres]
          have hne : ("error estimating gas limit: " ++ e) ≠ "" :=
            string_append_ne_empty _ _ (by decide)
          simp [hne]
        | ok safeLimit =>
          have hres : SimulateTransaction t true (.ok g) =
              ⟨true, g, safeLimit, ""⟩ := by
            simp [SimulateTransaction, hsafe]
          rw [hres]
          simp [hg]

/-- Witness for the amended C6: a positive successful estimate of 21000
yields a simulated result satisfying the exactly-one invariant. -/
theorem simulateTransaction_result_invariant_witness :
    (0 < (SimulateTransaction ⟨0, 0⟩ true (.ok 21000)).estimatedGasLimit ∧
      (SimulateTransaction ⟨0, 0⟩ true (.ok 21000)).simulationError = "") ∨
    (SimulateTransaction ⟨0, 0⟩ true (.ok 21000)).simulationError ≠ "" :=
  ((simulateTransaction_result_invariant ⟨0, 0⟩ true (.ok 21000)
      (fun g h => by cases h; decide)).2
    (by simp [SimulateTransaction, getSafeGasLimit_21000_zero])).1

/-- Claim C9: a 404 response makes getBeaconBlock return the zero value,
exists = false and a nil error; a non-nil error occurs only for a transport
failure, a status other than 200 or 404, or a decode failure. -/
theorem getBeaconBlock_notFound {β : Type} [Inhabited β]
    (unmarshal : String → Option β) (body : String) :
    getBeaconBlock (.ok (body, 404)) unmarshal = (default, false, none) ∧
    (∀ req, (getBeaconBlock req unmarshal).2.2 ≠ none →
      (∃ e, req = .error e) ∨
      (∃ b s, req = .ok (b, s) ∧ s ≠ 404 ∧ s ≠ 200) ∨
      (∃ b, req = .ok (b, 200) ∧ unmarshal b = none)) := by
  constructor
  · simp [getBeaconBlock]
  · intro req h
    match req with
    | .error e => exact Or.inl ⟨e, rfl⟩
    | .ok (b, s) =>
      by_cases h404 : s = 404
      · subst h404
        simp [getBeaconBlock] at h
      · by_cases h200 : s = 200
        · subst h200
          cases hu : unmarshal b with
          | none => exact Or.inr (Or.inr ⟨b, rfl, hu⟩)
          | some v => simp [getBeaconBlock, hu] at h
        · exact Or.inr (Or.inl ⟨b, s, rfl, h404, h200⟩)

/-- Witness for C9: a 404 on a Nat-valued decode gives the zero value with no
error, and a transport error is classified as such. -/
theorem getBeaconBlock_notFound_witness :
    getBeaconBlock (β := Nat) (.ok ("x", 404)) (fun _ => none) =
      (0, false, none) ∧
    ((∃ e, (Except.error "boom" : Except String (String × Nat)) = .error e) ∨
      (∃ b s, (Except.error "boom" : Except String (String × Nat)) = .ok (b, s) ∧
        s ≠ 404 ∧ s ≠ 200) ∨
      (∃ b, (Except.error "boom" : Except String (String × Nat)) = .ok (b, 200) ∧
        (fun (_ : String) => (none : Option Nat)) b = none)) :=
  ⟨(getBeaconBlock_notFound (β := Nat) (fun _ => none) "x").1,
    (getBeaconBlock_notFound (β := Nat) (fun _ => none) "x").2 (.error "boom")
      (by simp [getBeaconBlock])⟩


/-- Full characterization of the BatchExecuteTransactions loop, for a starting
nonce N: whenever the loop returns transactions, transaction i is built from
submission i with nonce N + i, the submission's own gas limit and every other
field from the shared opts, and the final opts carry nonce N + n and the last
submission's gas limit; and the loop does return transactions whenever the
RawTransact boundary never fails. -/
theorem batchLoop_spec (transactErr : Nat → Option String)
    (subs : List TransactionSubmission) :
    ∀ (k : Nat) (opts : TransactOpts) (N : Nat), opts.nonce = some N →
      (∀ txs optsF, batchLoop transactErr k subs opts = (.ok txs, optsF) →
        txs.length = subs.length ∧
        (∀ i (hi : i < subs.length) (ht : i < txs.length),
          txs.get ⟨i, ht⟩ =
            { toAddr := (subs.get ⟨i, hi⟩).txInfo.toAddr,
              data := (subs.get ⟨i, hi⟩).txInfo.data,
              fromAddr := opts.fromAddr,
              nonce := some (N + i),
              signer := opts.signer,
              gasPrice := opts.gasPrice,
              gasFeeCap := opts.gasFeeCap,
              gasTipCap := opts.gasTipCap,
              gasLimit := (subs.get ⟨i, hi⟩).gasLimit,
              callCtx := opts.callCtx,
              noSend := opts.noSend,
              value := (subs.get ⟨i, hi⟩).txInfo.value }) ∧
        optsF.nonce = some (N + subs.length) ∧
        (∀ s, subs.getLast? = some s → optsF.gasLimit = s.gasLimit)) ∧
      ((∀ j, transactErr j = none) →
        ∃ txs optsF, batchLoop transactErr k subs opts = (.ok txs, optsF)) := by
  induction subs with
  | nil =>
    intro k opts N hN
    constructor
    · intro txs optsF heq
      simp only [batchLoop, Prod.mk.injEq, Except.ok.injEq] at heq
      obtain ⟨h1, h2⟩ := heq
      subst h1
      subst h2
      refine ⟨rfl, ?_, ?_, ?_⟩
      · intro i hi ht
        exact absurd hi (by simp)
      · simpa using hN
      · intro s hs
        simp at hs
    · intro _
      exact ⟨[], opts, rfl⟩
  | cons sub rest ih =>
    intro k opts N hN
    have hnext : ({ opts with gasLimit := sub.gasLimit,
                              nonce := opts.nonce.map (· + 1) } : TransactOpts).nonce = some (N + 1) := by
      simp [hN]
    have ihh := ih (k + 1)
      { opts with gasLimit := sub.gasLimit, nonce := opts.nonce.map (· + 1) }
      (N + 1) hnext
    constructor
    · intro txs optsF heq
      cases hte : transactErr k with
      | some e =>
        simp only [batchLoop, hte] at heq
        exact absurd (congrArg Prod.fst heq) (by simp)
      | none =>
        cases hbl : batchLoop transactErr (k + 1) rest
            { opts with gasLimit := sub.gasLimit,
                        nonce := opts.nonce.map (· + 1) } with
        | mk res optsG =>
          cases res with
          | error e =>
            simp only [batchLoop, hte, hbl] at heq
            exact absurd (congrArg Prod.fst heq) (by simp)
          | ok txs2 =>
            simp only [batchLoop, hte, hbl, Prod.mk.injEq, Except.ok.injEq] at heq
            obtain ⟨h1, h2⟩ := heq
            subst h1
            subst h2
            obtain ⟨hlen, hget, hnonce, hlast⟩ := ihh.1 txs2 optsG hbl
            refine ⟨?_, ?_, ?_, ?_⟩
            · simpa using hlen
            · intro i hi ht
              cases i with
              | zero =>
                simp [ExecuteTransactionRaw, hN]
              | succ j =>
                have hj : j < rest.length := by simpa using hi
                have htj : j < txs2.length := by
                  have := ht
                  simp at this
                  omega
                have hrec := hget j hj htj
                simp only [List.get_cons_succ]
                rw [hrec]
                have harith : N + 1 + j = N + (j + 1) := by omega
                simp [harith]
            · rw [hnonce]
              simp only [List.length_cons, Option.some.injEq]
              omega
            · intro s hs
              cases rest with
              | nil =>
                have hsub : s = sub := by simpa using hs.symm
                subst hsub
                simp only [batchLoop, Prod.mk.injEq, Except.ok.injEq] at hbl
                obtain ⟨_, h2⟩ := hbl
                rw [← h2]
              | cons r1 rs =>
                rw [List.getLast?_cons_cons] at hs
                exact hlast s hs
    · intro hall
      have hte : transactErr k = none := hall k
      obtain ⟨txs2, optsF, hbl⟩ := ihh.2 hall
      exact ⟨ExecuteTransactionRaw sub.txInfo.toAddr sub.txInfo.data
        sub.txInfo.value { opts with gasLimit := sub.gasLimit } :: txs2, optsF,
        by simp only [batchLoop, hte, hbl]⟩


/-- Claim C5: whenever BatchExecuteTransactions returns transactions, they
are created in input order with consecutive nonces N, N+1, ..., where N is
opts.Nonce when set and otherwise the on-chain nonce fetched exactly once;
each transaction carries its submission's own gas limit while sharing the
fee-cap fields of opts.  It does return the transactions whenever the
RawTransact boundary raises no error; a boundary failure aborts the batch
with an error, as in the source. -/
theorem batchExecuteTransactions_nonce_seq (nonceAt : Except String Nat)
    (transactErr : Nat → Option String)
    (subs : List TransactionSubmission) (opts : TransactOpts) (N : Nat)
    (h : opts.nonce = some N ∨ (opts.nonce = none ∧ nonceAt = .ok N)) :
    (∀ txs opts1,
      (BatchExecuteTransactions nonceAt transactErr subs opts).1 =
        .ok (txs, opts1) →
      txs.length = subs.length ∧
      (∀ i (hi : i < subs.length) (ht : i < txs.length),
        txs.get ⟨i, ht⟩ =
          { toAddr := (subs.get ⟨i, hi⟩).txInfo.toAddr,
            data := (subs.get ⟨i, hi⟩).txInfo.data,
            fromAddr := opts.fromAddr,
            nonce := some (N + i),
            signer := opts.signer,
            gasPrice := opts.gasPrice,
            gasFeeCap := opts.gasFeeCap,
            gasTipCap := opts.gasTipCap,
            gasLimit := (subs.get ⟨i, hi⟩).gasLimit,
            callCtx := opts.callCtx,
            noSend := opts.noSend,
            value := (subs.get ⟨i, hi⟩).txInfo.value })) ∧
    ((∀ j, transactErr j = none) →
      ∃ txs opts1,
        (BatchExecuteTransactions nonceAt transactErr subs opts).1 =
          .ok (txs, opts1)) ∧
    ((BatchExecuteTransactions nonceAt transactErr subs opts).2 =
      if opts.nonce = none then 1 else 0) := by
  rcases h with hN | ⟨hnone, hok⟩
  · refine ⟨?_, ?_, ?_⟩
    · intro txs opts1 heq
      cases hbl : batchLoop transactErr 0 subs opts with
      | mk res optsG =>
        cases res with
        | error e =>
          simp only [BatchExecuteTransactions, hN, hbl] at heq
          simp at heq
        | ok txs2 =>
          simp only [BatchExecuteTransactions, hN, hbl, Except.ok.injEq,
            Prod.mk.injEq] at heq
          obtain ⟨h1, _⟩ := heq
          subst h1
          obtain ⟨hlen, hget, _, _⟩ := (batchLoop_spec transactErr subs 0 opts N hN).1
            txs2 optsG hbl
          exact ⟨hlen, hget⟩
    · intro hall
      obtain ⟨txs2, optsG, hbl⟩ := (batchLoop_spec transactErr subs 0 opts N hN).2 hall
      exact ⟨txs2, optsG, by simp only [BatchExecuteTransactions, hN, hbl]⟩
    · cases hbl : batchLoop transactErr 0 subs opts with
      | mk res optsG => cases res <;> simp [BatchExecuteTransactions, hN, hbl]
  · have hN2 : ({ opts with nonce := some N } : TransactOpts).nonce = some N := rfl
    refine ⟨?_, ?_, ?_⟩
    · intro txs opts1 heq
      cases hbl : batchLoop transactErr 0 subs { opts with nonce := some N } with
      | mk res optsG =>
        cases res with
        | error e =>
          simp only [BatchExecuteTransactions, hnone, hok, hbl] at heq
          simp at heq
        | ok txs2 =>
          simp only [BatchExecuteTransactions, hnone, hok, hbl, Except.ok.injEq,
            Prod.mk.injEq] at heq
          obtain ⟨h1, _⟩ := heq
          subst h1
          obtain ⟨hlen, hget, _, _⟩ := (batchLoop_spec transactErr subs 0
            { opts with nonce := some N } N hN2).1 txs2 optsG hbl
          refine ⟨hlen, ?_⟩
          intro i hi ht
          simpa using hget i hi ht
    · intro hall
      obtain ⟨txs2, optsG, hbl⟩ := (batchLoop_spec transactErr subs 0
        { opts with nonce := some N } N hN2).2 hall
      exact ⟨txs2, optsG, by simp only [BatchExecuteTransactions, hnone, hok, hbl]⟩
    · cases hbl : batchLoop transactErr 0 subs { opts with nonce := some N } with
      | mk res optsG =>
        cases res <;> simp [BatchExecuteTransactions, hnone, hok, hbl]

/-- Witness for C5: two submissions starting at nonce 5, with a boundary
that never fails, yield two transactions. -/
theorem batchExecuteTransactions_nonce_seq_witness :
    ∃ txs opts1,
      (BatchExecuteTransactions (.ok 0) sampleNoErr [sampleSub1, sampleSub2]
        sampleOpts).1 = .ok (txs, opts1) ∧ txs.length = 2 := by
  have h := batchExecuteTransactions_nonce_seq (.ok 0) sampleNoErr
    [sampleSub1, sampleSub2] sampleOpts 5 (Or.inl rfl)
  obtain ⟨txs, opts1, hx⟩ := h.2.1 (fun _ => rfl)
  obtain ⟨hlen, _⟩ := h.1 txs opts1 hx
  exact ⟨txs, opts1, hx, by simpa using hlen⟩

/-- Claim C10: on a successful call, BatchExecuteTransactions leaves the
caller-supplied opts with nonce N + n and the last submission's gas limit
(the in-place mutation of the Go code, made explicit as the returned opts),
and SignTransaction leaves NoSend set on the caller's opts. -/
theorem batchExecuteTransactions_mutates_opts (nonceAt : Except String Nat)
    (transactErr : Nat → Option String)
    (subs : List TransactionSubmission) (opts : TransactOpts) (N : Nat)
    (h : opts.nonce = some N ∨ (opts.nonce = none ∧ nonceAt = .ok N)) :
    (∀ txs opts1,
      (BatchExecuteTransactions nonceAt transactErr subs opts).1 =
        .ok (txs, opts1) →
      opts1.nonce = some (N + subs.length) ∧
      (∀ s, subs.getLast? = some s → opts1.gasLimit = s.gasLimit)) ∧
    (∀ txInfo, (SignTransaction txInfo opts).1 = { opts with noSend := true } ∧
      (SignTransaction txInfo opts).1.noSend = true) := by
  constructor
  · intro txs opts1 heq
    rcases h with hN | ⟨hnone, hok⟩
    · cases hbl : batchLoop transactErr 0 subs opts with
      | mk res optsG =>
        cases res with
        | error e =>
          simp only [BatchExecuteTransactions, hN, hbl] at heq
          simp at heq
        | ok txs2 =>
          simp only [BatchExecuteTransactions, hN, hbl, Except.ok.injEq,
            Prod.mk.injEq] at heq
          obtain ⟨_, h2⟩ := heq
          subst h2
          obtain ⟨_, _, hnonce, hlast⟩ := (batchLoop_spec transactErr subs 0 opts
            N hN).1 txs2 optsG hbl
          exact ⟨hnonce, hlast⟩
    · have hN2 : ({ opts with nonce := some N } : TransactOpts).nonce = some N := rfl
      cases hbl : batchLoop transactErr 0 subs { opts with nonce := some N } with
      | mk res optsG =>
        cases res with
        | error e =>
          simp only [BatchExecuteTransactions, hnone, hok, hbl] at heq
          simp at heq
        | ok txs2 =>
          simp only [BatchExecuteTransactions, hnone, hok, hbl, Except.ok.injEq,
            Prod.mk.injEq] at heq
          obtain ⟨_, h2⟩ := heq
          subst h2
          obtain ⟨_, _, hnonce, hlast⟩ := (batchLoop_spec transactErr subs 0
            { opts with nonce := some N } N hN2).1 txs2 optsG hbl
          exact ⟨hnonce, hlast⟩
  · intro txInfo
    exact ⟨rfl, rfl⟩

/-- Witness for C10: after a two-submission batch starting at nonce 5 the
opts carry nonce 7 and gas limit 200, and SignTransaction leaves NoSend set. -/
theorem batchExecuteTransactions_mutates_opts_witness :
    (SignTransaction sampleInfo1 sampleOpts).1.noSend = true ∧
    ∃ txs opts1,
      (BatchExecuteTransactions (.ok 0) sampleNoErr [sampleSub1, sampleSub2]
        sampleOpts).1 = .ok (txs, opts1) ∧
      opts1.nonce = some 7 ∧ opts1.gasLimit = 200 := by
  have h := batchExecuteTransactions_mutates_opts (.ok 0) sampleNoErr
    [sampleSub1, sampleSub2] sampleOpts 5 (Or.inl rfl)
  have hx : (BatchExecuteTransactions (.ok 0) sampleNoErr
      [sampleSub1, sampleSub2] sampleOpts).1 =
      .ok ([sampleTx1, sampleTx2], sampleOptsF) := rfl
  obtain ⟨hn, hg⟩ := h.1 _ _ hx
  exact ⟨(h.2 sampleInfo1).2, [sampleTx1, sampleTx2], sampleOptsF, hx,
    by simpa using hn, by simpa using hg sampleSub2 (by simp)⟩


/-- wrapInt64 is the identity on the int64 range. -/
theorem wrapInt64_eq_self (x : Int) (h1 : -(2 ^ 63) ≤ x) (h2 : x < 2 ^ 63) :
    wrapInt64 x = x := by
  unfold wrapInt64
  rw [Int.emod_eq_of_lt (by omega) (by omega)]
  omega

/-- intRange is empty when the bounds are degenerate. -/
theorem intRange_eq_nil (lo hi : Int) (h : hi ≤ lo) : intRange lo hi = [] := by
  unfold intRange
  have h0 : (hi - lo).toNat = 0 := by omega
  rw [h0]
  rfl

/-- Adjacent intRanges concatenate. -/
theorem intRange_append (lo m hi : Int) (h1 : lo ≤ m) (h2 : m ≤ hi) :
    intRange lo m ++ intRange m hi = intRange lo hi := by
  unfold intRange
  have hn : (hi - lo).toNat = (m - lo).toNat + (hi - m).toNat := by omega
  rw [hn, List.range_add, List.map_append]
  congr 1
  rw [List.map_map]
  apply List.map_congr_left
  intro k hk
  simp only [Function.comp_apply]
  omega

/-- Membership in intRange. -/
theorem mem_intRange {j lo hi : Int} : j ∈ intRange lo hi ↔ lo ≤ j ∧ j < hi := by
  unfold intRange
  simp only [List.mem_map, List.mem_range]
  constructor
  · rintro ⟨k, hk, rfl⟩
    omega
  · rintro ⟨h1, h2⟩
    exact ⟨(j - lo).toNat, by omega, by omega⟩

/-- intRange has no duplicates. -/
theorem intRange_nodup (lo hi : Int) : (intRange lo hi).Nodup := by
  unfold intRange
  exact List.Nodup.map (fun a b hab => by omega) (List.nodup_range _)

/-- Element counts of intRange. -/
theorem intRange_count (lo hi j : Int) :
    (intRange lo hi).count j = if lo ≤ j ∧ j < hi then 1 else 0 := by
  rw [List.count_eq_of_nodup (intRange_nodup lo hi)]
  simp [mem_intRange]

/-- With a never-failing adder the window trace is the whole index list. -/
theorem windowTrace_all_ok (adder : Int → Except String Unit)
    (h : ∀ j, adder j = .ok ()) :
    ∀ l, windowTrace adder l = (l, .ok ()) := by
  intro l
  induction l with
  | nil => rfl
  | cons j rest ihl => simp [windowTrace, h j, ihl]

/-- A strict window job invokes the adder on exactly its window's indices
when multicaller creation and the adder never fail. -/
theorem batchWindowJob_trace (newMC adder call : Int → Except String Unit)
    (hnm : ∀ w, newMC w = .ok ()) (had : ∀ j, adder j = .ok ())
    (w : Int × Int) :
    (batchWindowJob newMC adder call w).1 = windowIndices w := by
  unfold batchWindowJob
  rw [hnm w.1, windowTrace_all_ok adder had]
  cases hc : call w.1 <;> simp [hc]

/-- A tolerant window job invokes the adder on exactly its window's indices
when multicaller creation and the adder never fail. -/
theorem flexWindowJob_trace (newMC adder : Int → Except String Unit)
    (flexCall : Int → Except String (List Bool))
    (handleResult : Bool → Int → Except String Unit)
    (hnm : ∀ w, newMC w = .ok ()) (had : ∀ j, adder j = .ok ())
    (w : Int × Int) :
    (flexWindowJob newMC adder flexCall handleResult w).1 = windowIndices w := by
  unfold flexWindowJob
  rw [hnm w.1, windowTrace_all_ok adder had]
  cases hc : flexCall w.1 <;> simp [hc]

/-- When a strict window job's oracles all succeed, the job result is the
window's indices with no error. -/
theorem batchWindowJob_all_ok (newMC adder call : Int → Except String Unit)
    (hnm : ∀ w, newMC w = .ok ()) (had : ∀ j, adder j = .ok ())
    (hcall : ∀ w, call w = .ok ()) (w : Int × Int) :
    batchWindowJob newMC adder call w = (windowIndices w, .ok ()) := by
  unfold batchWindowJob
  rw [hnm w.1, windowTrace_all_ok adder had, hcall w.1]

/-- firstJobError is ok when every job succeeded. -/
theorem firstJobError_all_ok :
    ∀ (jobs : List (List Int × Except String Unit)),
      (∀ jb ∈ jobs, jb.2 = .ok ()) → firstJobError jobs = .ok () := by
  intro jobs
  induction jobs with
  | nil => intro _; rfl
  | cons jb rest ihj =>
    intro h
    have h1 := h jb (by simp)
    simp [firstJobError, h1]
    exact ihj (fun x hx => h x (by simp [hx]))

/-- When errgroupRun returns, the collected trace is the concatenation of the
jobs' traces and the result is the first job error. -/
theorem errgroupRun_some_trace (sem : Option Nat)
    (jobs : List (List Int × Except String Unit))
    (r : List Int × Except String Unit) (h : errgroupRun sem jobs = some r) :
    r.1 = (jobs.map Prod.fst).flatten ∧ r.2 = firstJobError jobs := by
  match sem, jobs with
  | none, jobs =>
    simp [errgroupRun] at h
    exact ⟨congrArg Prod.fst h.symm, congrArg Prod.snd h.symm⟩
  | some 0, [] =>
    simp [errgroupRun] at h
    exact ⟨congrArg Prod.fst h.symm, congrArg Prod.snd h.symm⟩
  | some 0, jb :: rest =>
    simp [errgroupRun] at h
  | some (n + 1), jobs =>
    simp [errgroupRun] at h
    exact ⟨congrArg Prod.fst h.symm, congrArg Prod.snd h.symm⟩

/-- With positive batchSize, a nonnegative start and no int64 overflow in
the step arithmetic, the window dispatch loop terminates within the fuel and
its windows cover exactly [i, count). -/
theorem batchWindowsGoAux_succ_spec (count batchSize : Int) (hbs : 0 < batchSize)
    (hnw : count + batchSize ≤ 2 ^ 63) :
    ∀ (fuel : Nat) (i : Int), 0 ≤ i → count - i ≤ (fuel : Int) * batchSize →
      ∃ ws, batchWindowsGoAux count batchSize (fuel + 1) i = some ws ∧
        (ws.map windowIndices).flatten = intRange i count := by
  intro fuel
  induction fuel with
  | zero =>
    intro i h0 hf
    rw [Nat.cast_zero, zero_mul] at hf
    have hni : ¬ i < count := by omega
    refine ⟨[], ?_, ?_⟩
    · simp only [batchWindowsGoAux, if_neg hni]
    · simp [intRange_eq_nil i count (by omega)]
  | succ fuel ih =>
    intro i h0 hf
    by_cases hi : i < count
    · have hw : wrapInt64 (i + batchSize) = i + batchSize := by
        apply wrapInt64_eq_self
        · omega
        · omega
      have hf2 : count - (i + batchSize) ≤ (fuel : Int) * batchSize := by
        have hcast : (((fuel + 1 : Nat)) : Int) = (fuel : Int) + 1 := by push_cast; ring
        have hmul : ((fuel : Int) + 1) * batchSize = (fuel : Int) * batchSize + batchSize := by
          ring
        rw [hcast, hmul] at hf
        omega
      obtain ⟨ws, hws, hflat⟩ := ih (i + batchSize) (by omega) hf2
      have hstep : batchWindowsGoAux count batchSize (fuel + 1 + 1) i =
          some ((i, if i + batchSize > count then count else i + batchSize) :: ws) := by
        rw [batchWindowsGoAux, if_pos hi, hw, hws]
      refine ⟨_, hstep, ?_⟩
      simp only [List.map_cons, List.flatten_cons, hflat]
      unfold windowIndices
      by_cases hcase : i + batchSize ≤ count
      · rw [if_neg (by omega)]
        exact intRange_append i (i + batchSize) count (by omega) hcase
      · rw [if_pos (by omega)]
        rw [intRange_eq_nil (i + batchSize) count (by omega), List.append_nil]
    · refine ⟨[], ?_, ?_⟩
      · simp only [batchWindowsGoAux, if_neg hi]
      · simp [intRange_eq_nil i count (by omega)]

/-- Under the no-overflow hypothesis the dispatch loop terminates and the
windows cover exactly [0, count). -/
theorem batchWindowsGo_spec (count batchSize : Int) (hbs : 0 < batchSize)
    (hnw : count + batchSize ≤ 2 ^ 63) :
    ∃ ws, batchWindowsGo count batchSize = some ws ∧
      (ws.map windowIndices).flatten = intRange 0 count := by
  unfold batchWindowsGo
  have hsplit : (2 ^ 64 : Nat) = (2 ^ 64 - 1) + 1 := by norm_num
  rw [hsplit]
  apply batchWindowsGoAux_succ_spec count batchSize hbs hnw (2 ^ 64 - 1) 0 le_rfl
  have h1 : (((2 ^ 64 - 1 : Nat)) : Int) = 2 ^ 64 - 1 := by norm_num
  rw [h1]
  have h2 : (2 ^ 64 - 1 : Int) * 1 ≤ (2 ^ 64 - 1) * batchSize :=
    mul_le_mul_of_nonneg_left (by omega) (by norm_num)
  omega

/-- If a set of loop-index values is closed under the wrapped step and all
below count, the dispatch loop started inside it never exits: the fuel runs
out at every amount, which at the top-level fuel 2^64 means divergence. -/
theorem batchWindowsGoAux_cycle (count batchSize : Int) (S : List Int)
    (hS : ∀ i ∈ S, i < count ∧ wrapInt64 (i + batchSize) ∈ S) :
    ∀ (fuel : Nat) (i : Int), i ∈ S →
      batchWindowsGoAux count batchSize fuel i = none := by
  intro fuel
  induction fuel with
  | zero => intro i _; rfl
  | succ fuel ihf =>
    intro i hi
    obtain ⟨hlt, hnext⟩ := hS i hi
    simp only [batchWindowsGoAux, if_pos hlt]
    rw [ihf _ hnext]


/-- BatchQuery unfolded at a successful window computation. -/
theorem batchQuery_eq (limit count batchSize : Int)
    (newMC adder call : Int → Except String Unit) (ws : List (Int × Int))
    (h : batchWindowsGo count batchSize = some ws) :
    BatchQuery limit count batchSize newMC adder call =
      (errgroupRun (setLimitSem limit)
        (ws.map (batchWindowJob newMC adder call))).map
          (fun r => (r.1, wrapWaitError r.2)) := by
  unfold BatchQuery
  rw [h]

/-- BatchQuery never returns when the window dispatch loop never
terminates. -/
theorem batchQuery_none (limit count batchSize : Int)
    (newMC adder call : Int → Except String Unit)
    (h : batchWindowsGo count batchSize = none) :
    BatchQuery limit count batchSize newMC adder call = none := by
  unfold BatchQuery
  rw [h]

/-- FlexBatchQuery unfolded at a successful window computation. -/
theorem flexBatchQuery_eq (limit count batchSize : Int)
    (newMC adder : Int → Except String Unit)
    (flexCall : Int → Except String (List Bool))
    (handleResult : Bool → Int → Except String Unit) (ws : List (Int × Int))
    (h : batchWindowsGo count batchSize = some ws) :
    FlexBatchQuery limit count batchSize newMC adder flexCall handleResult =
      (errgroupRun (setLimitSem limit)
        (ws.map (flexWindowJob newMC adder flexCall handleResult))).map
          (fun r => (r.1, wrapWaitError r.2)) := by
  unfold FlexBatchQuery
  rw [h]

/-- Counterexample to claim C4 as stated: at count = 2^63 - 1 and
batchSize = 2^62 the loop index wraps in int64 and cycles through
0, 2^62, -2^63, -2^62 forever, all below count, so the dispatch loop never
terminates: the adder is invoked on wrapped negative windows forever and
never on any index in [2^62, count), and the call never returns.  The model
exhibits this as the divergence value none. -/
theorem batchQuery_wrap_cex :
    batchWindowsGo (2 ^ 63 - 1) (2 ^ 62) = none ∧
    BatchQuery (-1) (2 ^ 63 - 1) (2 ^ 62) (fun _ => .ok ()) (fun _ => .ok ())
      (fun _ => .ok ()) = none := by
  have hc : (2 : Int) ^ 63 - 1 = 9223372036854775807 := by norm_num
  have hb : (2 : Int) ^ 62 = 4611686018427387904 := by norm_num
  have hnone : batchWindowsGo (2 ^ 63 - 1) (2 ^ 62) = none := by
    rw [hc, hb]
    unfold batchWindowsGo
    exact batchWindowsGoAux_cycle 9223372036854775807 4611686018427387904
      [0, 4611686018427387904, -9223372036854775808, -4611686018427387904]
      (by decide) (2 ^ 64) 0 (by decide)
  exact ⟨hnone, batchQuery_none (-1) (2 ^ 63 - 1) (2 ^ 62)
    (fun _ => .ok ()) (fun _ => .ok ()) (fun _ => .ok ()) hnone⟩

/-- Claim C4 (amended): for 0 < batchSize and count + batchSize ≤ 2^63 (so
the int64 loop arithmetic cannot overflow), BatchQuery and FlexBatchQuery
partition [0, count) into the consecutive windows [i, min(i+batchSize,
count)), every index belonging to exactly one window, and (with healthy
multicaller creation and adder) the query adder is invoked exactly once for
every index in [0, count); at overflow-inducing sizes the dispatch loop
cycles forever, per the counterexample. -/
theorem batchQuery_windowing (count batchSize : Int)
    (hbs : 0 < batchSize) (hnw : count + batchSize ≤ 2 ^ 63)
    (newMC adder call : Int → Except String Unit)
    (flexCall : Int → Except String (List Bool))
    (handleResult : Bool → Int → Except String Unit)
    (hnm : ∀ w, newMC w = .ok ()) (had : ∀ j, adder j = .ok ()) :
    ∃ ws, batchWindowsGo count batchSize = some ws ∧
      (ws.map windowIndices).flatten = intRange 0 count ∧
      (∀ j, ((ws.map windowIndices).flatten).count j =
        if 0 ≤ j ∧ j < count then 1 else 0) ∧
      (∀ (limit : Int) out,
        BatchQuery limit count batchSize newMC adder call = some out →
        out.1 = intRange 0 count) ∧
      (∀ (limit : Int) out,
        FlexBatchQuery limit count batchSize newMC adder flexCall handleResult =
          some out → out.1 = intRange 0 count) := by
  obtain ⟨ws, hws, hflat⟩ := batchWindowsGo_spec count batchSize hbs hnw
  refine ⟨ws, hws, hflat, ?_, ?_, ?_⟩
  · intro j
    rw [hflat]
    exact intRange_count 0 count j
  · intro limit out h
    unfold BatchQuery at h
    rw [hws, Option.map_eq_some'] at h
    obtain ⟨r, herr, hmap⟩ := h
    have htr := (errgroupRun_some_trace _ _ _ herr).1
    have hout : out.1 = r.1 := by rw [← hmap]
    rw [hout, htr, List.map_map]
    have hmaps : (ws.map (Prod.fst ∘ batchWindowJob newMC adder call)) =
        ws.map windowIndices :=
      List.map_congr_left
        (fun w _ => batchWindowJob_trace newMC adder call hnm had w)
    rw [hmaps, hflat]
  · intro limit out h
    unfold FlexBatchQuery at h
    rw [hws, Option.map_eq_some'] at h
    obtain ⟨r, herr, hmap⟩ := h
    have htr := (errgroupRun_some_trace _ _ _ herr).1
    have hout : out.1 = r.1 := by rw [← hmap]
    rw [hout, htr, List.map_map]
    have hmaps : (ws.map (Prod.fst ∘ flexWindowJob newMC adder flexCall
        handleResult)) = ws.map windowIndices :=
      List.map_congr_left
        (fun w _ => flexWindowJob_trace newMC adder flexCall handleResult hnm had w)
    rw [hmaps, hflat]

/-- Witness for the amended C4: count 1000 with batch size 300 yields the
four windows of the specification, covering exactly [0, 1000). -/
theorem batchQuery_windowing_witness :
    batchWindowsGo 1000 300 =
      some [(0, 300), (300, 600), (600, 900), (900, 1000)] ∧
    ∃ ws, batchWindowsGo 1000 300 = some ws ∧
      (ws.map windowIndices).flatten = intRange 0 1000 := by
  refine ⟨by decide, ?_⟩
  obtain ⟨ws, hws, hflat, _⟩ := batchQuery_windowing 1000 300 (by norm_num)
    (by norm_num) (fun _ => .ok ()) (fun _ => .ok ()) (fun _ => .ok ())
    (fun _ => .ok []) (fun _ _ => .ok ()) (fun _ => rfl) (fun _ => rfl)
  exact ⟨ws, hws, hflat⟩

/-- Counterexample to claim C3 as stated: with the non-positive ceiling 0,
count 1 and batchSize 1 and oracles that always succeed, BatchQuery never
returns (the first wg.Go blocks forever on the zero-capacity errgroup
semaphore), so a ceiling of 0 does not behave like a negative ceiling. -/
theorem batchQuery_zero_limit_cex :
    BatchQuery 0 1 1 (fun _ => .ok ()) (fun _ => .ok ()) (fun _ => .ok ()) =
      none := rfl

/-- Claim C3 (amended): for 0 < count, 0 < batchSize and
count + batchSize ≤ 2^63 (no int64 overflow in the window loop), a negative
concurrentCallLimit means unbounded concurrency — every window is executed
and the call returns — but a concurrentCallLimit of 0 makes BatchQuery and
FlexBatchQuery block forever, so 0 does not behave like a negative ceiling.
(At overflow-inducing sizes the dispatch loop itself cycles forever
regardless of the limit, per the C4 counterexample.) -/
theorem batchQuery_limit_behavior (limit : Int) (count batchSize : Int)
    (newMC adder call : Int → Except String Unit)
    (flexCall : Int → Except String (List Bool))
    (handleResult : Bool → Int → Except String Unit)
    (hc : 0 < count) (hbs : 0 < batchSize) (hnw : count + batchSize ≤ 2 ^ 63) :
    (limit < 0 →
      (∃ out, BatchQuery limit count batchSize newMC adder call = some out) ∧
      (∃ out, FlexBatchQuery limit count batchSize newMC adder flexCall
        handleResult = some out)) ∧
    (limit < 0 → (∀ w, newMC w = .ok ()) → (∀ j, adder j = .ok ()) →
      (∀ w, call w = .ok ()) →
      BatchQuery limit count batchSize newMC adder call =
        some (intRange 0 count, .ok ())) ∧
    (limit = 0 →
      BatchQuery limit count batchSize newMC adder call = none ∧
      FlexBatchQuery limit count batchSize newMC adder flexCall
        handleResult = none) := by
  obtain ⟨ws, hws, hflat⟩ := batchWindowsGo_spec count batchSize hbs hnw
  have hsemNeg : limit < 0 → setLimitSem limit = none := by
    intro h
    simp [setLimitSem, h]
  have hwsne : ws ≠ [] := by
    intro hnil
    rw [hnil] at hflat
    have h0 : (0 : Int) ∈ intRange 0 count := mem_intRange.mpr ⟨le_refl 0, hc⟩
    rw [← hflat] at h0
    simp at h0
  refine ⟨?_, ?_, ?_⟩
  · intro hneg
    constructor
    · rw [batchQuery_eq limit count batchSize newMC adder call ws hws,
        hsemNeg hneg]
      exact ⟨_, rfl⟩
    · rw [flexBatchQuery_eq limit count batchSize newMC adder flexCall
        handleResult ws hws, hsemNeg hneg]
      exact ⟨_, rfl⟩
  · intro hneg hnm had hcall
    rw [batchQuery_eq limit count batchSize newMC adder call ws hws,
      hsemNeg hneg]
    have hjobs : ws.map (batchWindowJob newMC adder call) =
        ws.map (fun w => ((windowIndices w : List Int),
          (.ok () : Except String Unit))) :=
      List.map_congr_left
        (fun w _ => batchWindowJob_all_ok newMC adder call hnm had hcall w)
    rw [hjobs]
    have hfirst : firstJobError (ws.map (fun w => ((windowIndices w : List Int),
        (.ok () : Except String Unit)))) = .ok () := by
      apply firstJobError_all_ok
      intro jb hjb
      rw [List.mem_map] at hjb
      obtain ⟨w, _, hw⟩ := hjb
      rw [← hw]
    have htrace : ((ws.map (fun w => ((windowIndices w : List Int),
        (.ok () : Except String Unit)))).map Prod.fst).flatten =
        intRange 0 count := by
      rw [List.map_map]
      have hcomp : (Prod.fst ∘ fun w => ((windowIndices w : List Int),
          (.ok () : Except String Unit))) = windowIndices := rfl
      rw [hcomp, hflat]
    rw [show errgroupRun none (ws.map (fun w => ((windowIndices w : List Int),
        (.ok () : Except String Unit)))) =
        some (((ws.map (fun w => ((windowIndices w : List Int),
          (.ok () : Except String Unit)))).map Prod.fst).flatten,
          firstJobError (ws.map (fun w => ((windowIndices w : List Int),
            (.ok () : Except String Unit))))) from rfl]
    rw [hfirst, htrace]
    rfl
  · intro h0
    subst h0
    obtain ⟨w, ws2, hcons⟩ := List.exists_cons_of_ne_nil hwsne
    subst hcons
    constructor
    · rw [batchQuery_eq 0 count batchSize newMC adder call (w :: ws2) hws]
      rfl
    · rw [flexBatchQuery_eq 0 count batchSize newMC adder flexCall
        handleResult (w :: ws2) hws]
      rfl

/-- Witness for the amended C3: two one-element windows run to completion
under a negative ceiling, and block under a ceiling of 0. -/
theorem batchQuery_limit_behavior_witness :
    BatchQuery (-1) 2 1 (fun _ => .ok ()) (fun _ => .ok ()) (fun _ => .ok ()) =
      some (intRange 0 2, .ok ()) ∧
    FlexBatchQuery 0 2 1 (fun _ => .ok ()) (fun _ => .ok ())
      (fun _ => .ok []) (fun _ _ => .ok ()) = none := by
  have hneg := batchQuery_limit_behavior (-1) 2 1 (fun _ => .ok ())
    (fun _ => .ok ()) (fun _ => .ok ()) (fun _ => .ok []) (fun _ _ => .ok ())
    (by norm_num) (by norm_num) (by norm_num)
  have hzero := batchQuery_limit_behavior 0 2 1 (fun _ => .ok ())
    (fun _ => .ok ()) (fun _ => .ok ()) (fun _ => .ok []) (fun _ _ => .ok ())
    (by norm_num) (by norm_num) (by norm_num)
  exact ⟨hneg.2.1 (by norm_num) (fun _ => rfl) (fun _ => rfl) (fun _ => rfl),
    (hzero.2.2 rfl).2⟩

end NodeManagerCore